import Mathlib

/-!
Shallow embedding of `src/pam_bridge/pam_bridge.c` and
`src/pam_bridge/include/pam_bridge.h` (repository sohsatoh/pam_totp).

The C core is a PAM conversation bridge: `pam_msg(pamh, style, msg)`
resolves the conversation capability from the handle, invokes it once with
a single message, zeroes and frees any returned secret, frees the response
envelope, and returns the raw result code.  Three wrappers fix the style.

Modelling choices:
  * byte buffers are `List Nat`; the heap is an association list from
    addresses (`Nat`) to buffers, standing for the live `malloc` allocations
    that the bridge can reach;
  * the conversation callback is a function value returning the raw code,
    an optional response envelope (whose secret field is an optional
    address), and the list of fresh allocations it made;
  * the observable effects of a call are recorded in an event trace:
    capability invocation, `memset` to zero, `free` of the secret buffer
    (with its contents at release time) and `free` of the envelope.
-/

namespace PamBridge

/-- A machine address (pointer value). -/
abbrev Addr := Nat

/-- The bytes of one heap allocation. -/
abbrev Buffer := List Nat

/-- The reachable part of the C heap: live allocations, by address. -/
abbrev Heap := List (Addr × Buffer)

/-- Read the allocation at `x`, if live. -/
def Heap.lookup : Heap → Addr → Option Buffer
  | [], _ => none
  | (a, b) :: t, x => if a = x then some b else Heap.lookup t x

/-- Overwrite the contents of the allocation at `x` (first match). -/
def Heap.update : Heap → Addr → Buffer → Heap
  | [], _, _ => []
  | (a, b) :: t, x, v => if a = x then (a, v) :: t else (a, b) :: Heap.update t x v

/-- Release the allocation at `x` (first match), as `free` does. -/
def Heap.erase : Heap → Addr → Heap
  | [], _ => []
  | (a, b) :: t, x => if a = x then t else (a, b) :: Heap.erase t x

/-- C `strlen`: number of bytes before the first NUL byte. -/
def strlen (b : Buffer) : Nat := (b.takeWhile (fun x => x ≠ 0)).length

/-- C `memset(p, 0, n)` on the buffer at `p`: zero the first `n` bytes. -/
def memsetZeroBuf (b : Buffer) (n : Nat) : Buffer :=
  List.replicate (min n b.length) 0 ++ b.drop n

/-- `struct pam_message { int msg_style; char *msg; }`.
The text pointer is stored by reference, exactly as
`pmsg.msg = (char *)msg;` does in the source. -/
structure pam_message where
  msg_style : Int
  msg : Addr
deriving DecidableEq, Repr

/-- `struct pam_response { char *resp; int resp_retcode; }`; the secret
field `resp` is a possibly-NULL pointer to an allocated string. -/
structure pam_response where
  resp : Option Addr
deriving DecidableEq, Repr

/-- What one invocation of the conversation function produces: the raw
result code, the (possibly NULL) response envelope written through the
`resp` out-parameter, and the fresh allocations the callback made. -/
structure ConvResult where
  ret : Int
  resp : Option pam_response
  allocs : List (Addr × Buffer)

/-- The conversation function pointer target: receives the message count,
the message array and the application data pointer. -/
abbrev ConvFn := Nat → List pam_message → Addr → ConvResult

/-- `struct pam_conv { int (*conv)(...); void *appdata_ptr; }`.
The function pointer may be NULL. -/
structure pam_conv where
  conv : Option ConvFn
  appdata_ptr : Addr

/-- The opaque PAM handle, as far as the bridge observes it: the outcome
of `pam_get_item(pamh, PAM_CONV, ...)` — a return code and the (possibly
NULL) `struct pam_conv *`. -/
structure pam_handle_t where
  conv_item : Int × Option pam_conv

/-! PAM constants from `security/pam_appl.h` (host framework header;
values are those of the host's PAM implementation).  The message styles
are fixed across implementations. -/

def PAM_SUCCESS : Int := 0
def PAM_CONV_ERR : Int := 6
def PAM_AUTH_ERR : Int := 9
def PAM_USER_UNKNOWN : Int := 13
def PAM_IGNORE : Int := 25

def PAM_PROMPT_ECHO_ON : Int := 2
def PAM_ERROR_MSG : Int := 3
def PAM_TEXT_INFO : Int := 4

/-! Aliases from `include/pam_bridge.h`:
`#define PAM_TOTP_SUCCESS PAM_SUCCESS` and so on. -/

def PAM_TOTP_SUCCESS : Int := PAM_SUCCESS
def PAM_TOTP_AUTH_ERR : Int := PAM_AUTH_ERR
def PAM_TOTP_USER_UNKNOWN : Int := PAM_USER_UNKNOWN
def PAM_TOTP_IGNORE : Int := PAM_IGNORE

/-- Observable effects of one `pam_msg` call, in program order. -/
inductive Event where
  /-- `conv->conv(n, msgs, &resp, appdata)` was invoked. -/
  | invokeConv (n : Nat) (msgs : List pam_message) (appdata : Addr)
  /-- `memset(buf, 0, n)` on the secret buffer at address `a`. -/
  | memsetZero (a : Addr) (n : Nat)
  /-- `free(resp->resp)`: the secret buffer at `a` was released with the
  recorded contents still in memory at the instant of release. -/
  | freeSecret (a : Addr) (contents : Buffer)
  /-- `free(resp)`: the response envelope was released. -/
  | freeEnvelope
deriving DecidableEq, Repr

/-- Recognize a capability invocation event. -/
def Event.isInvoke : Event → Bool
  | .invokeConv _ _ _ => true
  | _ => false

/-- Recognize the release of the response envelope. -/
def Event.isFreeEnvelope : Event → Bool
  | .freeEnvelope => true
  | _ => false

/-- Result of one `pam_msg` call: the returned `int`, the heap after the
call, and the trace of observable effects. -/
structure PamMsgOut where
  ret : Int
  heap : Heap
  trace : List Event
deriving Repr

/-- Shallow embedding of `pam_msg` from `src/pam_bridge/pam_bridge.c`:

```
ret = pam_get_item(pamh, PAM_CONV, (const void **)&conv);
if (ret != PAM_SUCCESS || conv == NULL || conv->conv == NULL)
    return PAM_CONV_ERR;
pmsg.msg_style = style;
pmsg.msg = (char *)msg;
ret = conv->conv(1, &pmsg_ptr, &resp, conv->appdata_ptr);
if (resp != NULL) {
    if (resp->resp != NULL) {
        memset(resp->resp, 0, strlen(resp->resp));
        free(resp->resp);
    }
    free(resp);
}
return ret;
```
-/
def pam_msg (pamh : pam_handle_t) (style : Int) (msg : Addr) (h : Heap) : PamMsgOut :=
  let ret0 := pamh.conv_item.1
  match pamh.conv_item.2 with
  | none => ⟨PAM_CONV_ERR, h, []⟩
  | some conv =>
    if ret0 ≠ PAM_SUCCESS then ⟨PAM_CONV_ERR, h, []⟩
    else
      match conv.conv with
      | none => ⟨PAM_CONV_ERR, h, []⟩
      | some convFn =>
        let pmsg : pam_message := ⟨style, msg⟩
        let r := convFn 1 [pmsg] conv.appdata_ptr
        let h1 := h ++ r.allocs
        let ev0 := Event.invokeConv 1 [pmsg] conv.appdata_ptr
        match r.resp with
        | none => ⟨r.ret, h1, [ev0]⟩
        | some env =>
          match env.resp with
          | none => ⟨r.ret, h1, [ev0, Event.freeEnvelope]⟩
          | some a =>
            let buf := (Heap.lookup h1 a).getD []
            let n := strlen buf
            let zeroed := memsetZeroBuf buf n
            let h2 := Heap.erase (Heap.update h1 a zeroed) a
            ⟨r.ret, h2,
              [ev0, Event.memsetZero a n, Event.freeSecret a zeroed,
               Event.freeEnvelope]⟩

/-- `pam_totp_prompt`: fixed style `PAM_PROMPT_ECHO_ON`. -/
def pam_totp_prompt (pamh : pam_handle_t) (msg : Addr) (h : Heap) : PamMsgOut :=
  pam_msg pamh PAM_PROMPT_ECHO_ON msg h

/-- `pam_totp_info`: fixed style `PAM_TEXT_INFO`. -/
def pam_totp_info (pamh : pam_handle_t) (msg : Addr) (h : Heap) : PamMsgOut :=
  pam_msg pamh PAM_TEXT_INFO msg h

/-- `pam_totp_error`: fixed style `PAM_ERROR_MSG`. -/
def pam_totp_error (pamh : pam_handle_t) (msg : Addr) (h : Heap) : PamMsgOut :=
  pam_msg pamh PAM_ERROR_MSG msg h

/-- The secret buffer is a well-formed C string allocation: some
NUL-free content followed by the terminating NUL byte. -/
def isCString (b : Buffer) : Prop :=
  ∃ content : Buffer, b = content ++ [0] ∧ ∀ x ∈ content, x ≠ 0

/-- The local status taxonomy of the spec (§3). -/
inductive StatusCode where
  | Success
  | AuthError
  | UserUnknown
  | Ignore
  | ConversationUnavailable
  | CallbackFailure
  | Unmapped (code : Int)
deriving DecidableEq, Repr

/-- Modelled from the spec (§6 raw-to-local status mapping table): the
fixed translation from raw host codes to the local `StatusCode`; raw
codes outside the table map to `Unmapped(code)`, preserving the original
value.  This is the spec-side definition used to state the refinement of
the alias scheme in `include/pam_bridge.h`, where each local code is an
alias of the corresponding raw constant and unrecognized raw codes are
passed through unchanged. -/
def statusOfRaw (c : Int) : StatusCode :=
  if c = PAM_TOTP_SUCCESS then .Success
  else if c = PAM_TOTP_AUTH_ERR then .AuthError
  else if c = PAM_TOTP_USER_UNKNOWN then .UserUnknown
  else if c = PAM_TOTP_IGNORE then .Ignore
  else .Unmapped c

/-! Helper lemmas about the heap and C strings. -/

theorem Heap.lookup_append_left (h t : Heap) (x : Addr) (b : Buffer)
    (hx : Heap.lookup h x = some b) : Heap.lookup (h ++ t) x = some b := by
  induction h with
  | nil => simp [Heap.lookup] at hx
  | cons p r ih =>
    obtain ⟨a, v⟩ := p
    by_cases hax : a = x
    · simp [Heap.lookup, hax] at hx ⊢
      exact hx
    · simp [Heap.lookup, hax] at hx ⊢
      exact ih hx

theorem Heap.lookup_update_ne (h : Heap) (a x : Addr) (v : Buffer)
    (hax : a ≠ x) : Heap.lookup (Heap.update h a v) x = Heap.lookup h x := by
  induction h with
  | nil => simp [Heap.update]
  | cons p r ih =>
    obtain ⟨c, w⟩ := p
    by_cases hca : c = a
    · subst hca
      simp [Heap.update, Heap.lookup, hax]
    · simp [Heap.update, Heap.lookup, hca]
      by_cases hcx : c = x
      · simp [hcx]
      · simp [hcx, ih]

theorem Heap.lookup_erase_ne (h : Heap) (a x : Addr)
    (hax : a ≠ x) : Heap.lookup (Heap.erase h a) x = Heap.lookup h x := by
  induction h with
  | nil => simp [Heap.erase]
  | cons p r ih =>
    obtain ⟨c, w⟩ := p
    by_cases hca : c = a
    · subst hca
      simp [Heap.erase, Heap.lookup, hax]
    · simp [Heap.erase, Heap.lookup, hca]
      by_cases hcx : c = x
      · simp [hcx, Heap.lookup]
      · simp [hcx, Heap.lookup, ih]

theorem takeWhile_ne_zero_append (c : Buffer) (hc : ∀ x ∈ c, x ≠ 0) :
    (c ++ [0]).takeWhile (fun x => decide (x ≠ 0)) = c := by
  induction c with
  | nil => simp
  | cons x t ih =>
    have hx : x ≠ 0 := hc x (by simp)
    have ht : ∀ y ∈ t, y ≠ 0 := fun y hy => hc y (by simp [hy])
    rw [List.cons_append, List.takeWhile_cons_of_pos (by simpa using hx), ih ht]

theorem strlen_cstring (c : Buffer) (hc : ∀ x ∈ c, x ≠ 0) :
    strlen (c ++ [0]) = c.length := by
  unfold strlen
  rw [takeWhile_ne_zero_append c hc]

theorem memsetZeroBuf_strlen_cstring (c : Buffer) (hc : ∀ x ∈ c, x ≠ 0) :
    ∀ b ∈ memsetZeroBuf (c ++ [0]) (strlen (c ++ [0])), b = 0 := by
  intro b hb
  rw [strlen_cstring c hc] at hb
  unfold memsetZeroBuf at hb
  have hmin : min c.length (c ++ [0]).length = c.length := by
    simp
  have hdrop : (c ++ [0]).drop c.length = [0] := by
    simp
  rw [hmin, hdrop] at hb
  rcases List.mem_append.mp hb with h1 | h1
  · exact List.eq_of_mem_replicate h1
  · simpa using h1

/-- Unfolding of `pam_msg` when the capability is registered and returns a
NULL response pointer. -/
theorem pam_msg_resp_none (pamh : pam_handle_t) (style : Int) (msg : Addr)
    (h : Heap) (f : ConvFn) (ad : Addr) (rc : Int)
    (allocs : List (Addr × Buffer))
    (hitem : pamh.conv_item = (PAM_SUCCESS, some ⟨some f, ad⟩))
    (hconv : f 1 [⟨style, msg⟩] ad = ⟨rc, none, allocs⟩) :
    pam_msg pamh style msg h =
      ⟨rc, h ++ allocs, [Event.invokeConv 1 [⟨style, msg⟩] ad]⟩ := by
  unfold pam_msg
  rw [hitem]
  simp [hconv]

/-- Unfolding of `pam_msg` when the capability returns a non-null envelope
whose secret field is NULL. -/
theorem pam_msg_secret_none (pamh : pam_handle_t) (style : Int) (msg : Addr)
    (h : Heap) (f : ConvFn) (ad : Addr) (rc : Int)
    (allocs : List (Addr × Buffer))
    (hitem : pamh.conv_item = (PAM_SUCCESS, some ⟨some f, ad⟩))
    (hconv : f 1 [⟨style, msg⟩] ad = ⟨rc, some ⟨none⟩, allocs⟩) :
    pam_msg pamh style msg h =
      ⟨rc, h ++ allocs,
       [Event.invokeConv 1 [⟨style, msg⟩] ad, Event.freeEnvelope]⟩ := by
  unfold pam_msg
  rw [hitem]
  simp [hconv]

/-- Unfolding of `pam_msg` when the capability returns a non-null envelope
with a non-null secret field at address `a`. -/
theorem pam_msg_secret_some (pamh : pam_handle_t) (style : Int) (msg : Addr)
    (h : Heap) (f : ConvFn) (ad : Addr) (rc : Int) (a : Addr)
    (allocs : List (Addr × Buffer))
    (hitem : pamh.conv_item = (PAM_SUCCESS, some ⟨some f, ad⟩))
    (hconv : f 1 [⟨style, msg⟩] ad = ⟨rc, some ⟨some a⟩, allocs⟩) :
    pam_msg pamh style msg h =
      ⟨rc,
       Heap.erase (Heap.update (h ++ allocs) a
         (memsetZeroBuf ((Heap.lookup (h ++ allocs) a).getD [])
           (strlen ((Heap.lookup (h ++ allocs) a).getD [])))) a,
       [Event.invokeConv 1 [⟨style, msg⟩] ad,
        Event.memsetZero a (strlen ((Heap.lookup (h ++ allocs) a).getD [])),
        Event.freeSecret a
          (memsetZeroBuf ((Heap.lookup (h ++ allocs) a).getD [])
            (strlen ((Heap.lookup (h ++ allocs) a).getD []))),
        Event.freeEnvelope]⟩ := by
  unfold pam_msg
  rw [hitem]
  simp [hconv]

/-- The return value of `pam_msg` with a registered capability is exactly
the raw code the capability reported. -/
theorem pam_msg_ret_invoked (pamh : pam_handle_t) (style : Int) (msg : Addr)
    (h : Heap) (f : ConvFn) (ad : Addr)
    (hitem : pamh.conv_item = (PAM_SUCCESS, some ⟨some f, ad⟩)) :
    (pam_msg pamh style msg h).ret = (f 1 [⟨style, msg⟩] ad).ret := by
  rcases hR : f 1 [⟨style, msg⟩] ad with ⟨rc, respOpt, allocs⟩
  cases respOpt with
  | none => rw [pam_msg_resp_none pamh style msg h f ad rc allocs hitem hR]
  | some env =>
    obtain ⟨ra⟩ := env
    cases ra with
    | none => rw [pam_msg_secret_none pamh style msg h f ad rc allocs hitem hR]
    | some a => rw [pam_msg_secret_some pamh style msg h f ad rc a allocs hitem hR]

/-- With a registered capability, the invocation events of the trace are
exactly one, carrying the single message the caller asked for. -/
theorem trace_filter_invoke (pamh : pam_handle_t) (style : Int) (msg : Addr)
    (h : Heap) (f : ConvFn) (ad : Addr)
    (hitem : pamh.conv_item = (PAM_SUCCESS, some ⟨some f, ad⟩)) :
    (pam_msg pamh style msg h).trace.filter Event.isInvoke =
      [Event.invokeConv 1 [⟨style, msg⟩] ad] := by
  rcases hR : f 1 [⟨style, msg⟩] ad with ⟨rc, respOpt, allocs⟩
  cases respOpt with
  | none =>
    rw [pam_msg_resp_none pamh style msg h f ad rc allocs hitem hR]
    simp [List.filter, Event.isInvoke]
  | some env =>
    obtain ⟨ra⟩ := env
    cases ra with
    | none =>
      rw [pam_msg_secret_none pamh style msg h f ad rc allocs hitem hR]
      simp [List.filter, Event.isInvoke]
    | some a =>
      rw [pam_msg_secret_some pamh style msg h f ad rc a allocs hitem hR]
      simp [List.filter, Event.isInvoke]

/-- C1: in every `pam_msg` call where the conversation capability returns a
non-null `pam_response` whose secret field is non-null, every byte of the
secret buffer is overwritten with zero before the buffer's memory is
released: the trace shows the `memset` to zero and then the `free` of the
secret buffer — whose contents at the instant of release are all zero —
before the envelope release, on this path and for every raw code the
capability reports. -/
theorem secret_zeroed_before_release
    (pamh : pam_handle_t) (style : Int) (msg : Addr) (h : Heap)
    (f : ConvFn) (ad : Addr) (rc : Int) (a : Addr)
    (allocs : List (Addr × Buffer)) (buf : Buffer)
    (hitem : pamh.conv_item = (PAM_SUCCESS, some ⟨some f, ad⟩))
    (hconv : f 1 [⟨style, msg⟩] ad = ⟨rc, some ⟨some a⟩, allocs⟩)
    (hbuf : Heap.lookup (h ++ allocs) a = some buf)
    (hcs : isCString buf) :
    ∃ zs : Buffer,
      (pam_msg pamh style msg h).trace =
        [Event.invokeConv 1 [⟨style, msg⟩] ad,
         Event.memsetZero a (strlen buf),
         Event.freeSecret a zs, Event.freeEnvelope] ∧
      ∀ b ∈ zs, b = 0 := by
  obtain ⟨content, hb, hcz⟩ := hcs
  refine ⟨memsetZeroBuf buf (strlen buf), ?_, ?_⟩
  · rw [pam_msg_secret_some pamh style msg h f ad rc a allocs hitem hconv]
    simp [hbuf]
  · subst hb
    exact memsetZeroBuf_strlen_cstring content hcz

/-- C2: the response cleanup runs unconditionally: whatever raw code the
capability reports (success or any failure code), a non-null response
envelope is released, and if its secret field is non-null that field is
zeroed and released as well; no error branch skips the release. -/
theorem cleanup_unconditional
    (pamh : pam_handle_t) (style : Int) (msg : Addr) (h : Heap)
    (f : ConvFn) (ad : Addr) (rc : Int) (env : pam_response)
    (allocs : List (Addr × Buffer))
    (hitem : pamh.conv_item = (PAM_SUCCESS, some ⟨some f, ad⟩))
    (hconv : f 1 [⟨style, msg⟩] ad = ⟨rc, some env, allocs⟩) :
    Event.freeEnvelope ∈ (pam_msg pamh style msg h).trace ∧
    ∀ a, env.resp = some a →
      Event.memsetZero a (strlen ((Heap.lookup (h ++ allocs) a).getD [])) ∈
          (pam_msg pamh style msg h).trace ∧
      ∃ zs, Event.freeSecret a zs ∈ (pam_msg pamh style msg h).trace := by
  obtain ⟨ra⟩ := env
  cases ra with
  | none =>
    rw [pam_msg_secret_none pamh style msg h f ad rc allocs hitem hconv]
    simp
  | some a =>
    rw [pam_msg_secret_some pamh style msg h f ad rc a allocs hitem hconv]
    refine ⟨by simp, ?_⟩
    intro a2 ha2
    have haa : a = a2 := by simpa using ha2
    subst haa
    exact ⟨by simp, ⟨memsetZeroBuf ((Heap.lookup (h ++ allocs) a).getD [])
      (strlen ((Heap.lookup (h ++ allocs) a).getD [])), by simp⟩⟩

/-- C3: when the conversation capability is absent or malformed (item
retrieval fails, the `pam_conv` struct is NULL, or its function pointer is
NULL), `pam_msg` returns `PAM_CONV_ERR` immediately, the heap is untouched
and the trace is empty: no callback is invoked and no memory is released. -/
theorem conv_unavailable
    (pamh : pam_handle_t) (style : Int) (msg : Addr) (h : Heap)
    (hna : pamh.conv_item.1 ≠ PAM_SUCCESS ∨ pamh.conv_item.2 = none ∨
      Option.bind pamh.conv_item.2 pam_conv.conv = none) :
    pam_msg pamh style msg h = ⟨PAM_CONV_ERR, h, []⟩ := by
  obtain ⟨item⟩ := pamh
  obtain ⟨ret0, conv?⟩ := item
  cases conv? with
  | none => simp [pam_msg]
  | some conv =>
    obtain ⟨cf, ap⟩ := conv
    rcases hna with h1 | h2 | h3
    · simp only [] at h1
      unfold pam_msg
      simp [h1]
    · exact absurd h2 (by simp)
    · simp only [Option.bind] at h3
      unfold pam_msg
      simp [h3]

/-- C4: whenever the capability returns a non-null response envelope, the
envelope is released exactly once (one `free(resp)` event in the trace),
independent of whether the secret field is null; and when the secret field
is null the trace shows no zeroing and no secret release at all. -/
theorem envelope_released_once
    (pamh : pam_handle_t) (style : Int) (msg : Addr) (h : Heap)
    (f : ConvFn) (ad : Addr) (rc : Int) (env : pam_response)
    (allocs : List (Addr × Buffer))
    (hitem : pamh.conv_item = (PAM_SUCCESS, some ⟨some f, ad⟩))
    (hconv : f 1 [⟨style, msg⟩] ad = ⟨rc, some env, allocs⟩) :
    (pam_msg pamh style msg h).trace.countP Event.isFreeEnvelope = 1 ∧
    (env.resp = none →
      (pam_msg pamh style msg h).trace =
        [Event.invokeConv 1 [⟨style, msg⟩] ad, Event.freeEnvelope]) := by
  obtain ⟨ra⟩ := env
  cases ra with
  | none =>
    rw [pam_msg_secret_none pamh style msg h f ad rc allocs hitem hconv]
    exact ⟨by simp [List.countP_cons, List.countP_nil, Event.isFreeEnvelope],
      fun _ => rfl⟩
  | some a =>
    rw [pam_msg_secret_some pamh style msg h f ad rc a allocs hitem hconv]
    refine ⟨by simp [List.countP_cons, List.countP_nil, Event.isFreeEnvelope], ?_⟩
    intro hcontra
    simp at hcontra

/-- C5: the raw result code of the capability is returned by `pam_msg`
unchanged, and the spec's §6 translation table — as realized by the alias
constants of `pam_bridge.h` — maps each defined raw code to its exact
`StatusCode` and every other raw code to `Unmapped(code)` with the original
value preserved. -/
theorem status_mapping
    (pamh : pam_handle_t) (style : Int) (msg : Addr) (h : Heap)
    (f : ConvFn) (ad : Addr) (rc : Int)
    (respOpt : Option pam_response) (allocs : List (Addr × Buffer))
    (hitem : pamh.conv_item = (PAM_SUCCESS, some ⟨some f, ad⟩))
    (hconv : f 1 [⟨style, msg⟩] ad = ⟨rc, respOpt, allocs⟩) :
    (pam_msg pamh style msg h).ret = rc ∧
    statusOfRaw PAM_TOTP_SUCCESS = StatusCode.Success ∧
    statusOfRaw PAM_TOTP_AUTH_ERR = StatusCode.AuthError ∧
    statusOfRaw PAM_TOTP_USER_UNKNOWN = StatusCode.UserUnknown ∧
    statusOfRaw PAM_TOTP_IGNORE = StatusCode.Ignore ∧
    (∀ c : Int, c ≠ PAM_TOTP_SUCCESS → c ≠ PAM_TOTP_AUTH_ERR →
      c ≠ PAM_TOTP_USER_UNKNOWN → c ≠ PAM_TOTP_IGNORE →
      statusOfRaw c = StatusCode.Unmapped c) := by
  refine ⟨?_, by decide, by decide, by decide, by decide, ?_⟩
  · rw [pam_msg_ret_invoked pamh style msg h f ad hitem, hconv]
  · intro c h1 h2 h3 h4
    simp [statusOfRaw, h1, h2, h3, h4]

/-- C6: for every style S and text T, `pam_msg` with a registered
capability invokes the capability exactly once, with message count 1 and a
single message whose style is S and whose text is T. -/
theorem single_dispatch
    (S : Int) (T : Addr) (pamh : pam_handle_t) (h : Heap)
    (f : ConvFn) (ad : Addr)
    (hitem : pamh.conv_item = (PAM_SUCCESS, some ⟨some f, ad⟩)) :
    (pam_msg pamh S T h).trace.filter Event.isInvoke =
      [Event.invokeConv 1 [⟨S, T⟩] ad] :=
  trace_filter_invoke pamh S T h f ad hitem

/-- C7: `pam_totp_prompt` is `pam_msg` at style `PAM_PROMPT_ECHO_ON`,
`pam_totp_info` at `PAM_TEXT_INFO`, `pam_totp_error` at `PAM_ERROR_MSG`;
apart from the fixed style each wrapper behaves identically to `pam_msg`
with the same handle and text, and each sends its fixed style in the single
dispatched message. -/
theorem style_routing
    (pamh : pam_handle_t) (msg : Addr) (h : Heap) (f : ConvFn) (ad : Addr)
    (hitem : pamh.conv_item = (PAM_SUCCESS, some ⟨some f, ad⟩)) :
    pam_totp_prompt pamh msg h = pam_msg pamh PAM_PROMPT_ECHO_ON msg h ∧
    pam_totp_info pamh msg h = pam_msg pamh PAM_TEXT_INFO msg h ∧
    pam_totp_error pamh msg h = pam_msg pamh PAM_ERROR_MSG msg h ∧
    (pam_totp_prompt pamh msg h).trace.filter Event.isInvoke =
      [Event.invokeConv 1 [⟨PAM_PROMPT_ECHO_ON, msg⟩] ad] ∧
    (pam_totp_info pamh msg h).trace.filter Event.isInvoke =
      [Event.invokeConv 1 [⟨PAM_TEXT_INFO, msg⟩] ad] ∧
    (pam_totp_error pamh msg h).trace.filter Event.isInvoke =
      [Event.invokeConv 1 [⟨PAM_ERROR_MSG, msg⟩] ad] :=
  ⟨rfl, rfl, rfl,
   trace_filter_invoke pamh PAM_PROMPT_ECHO_ON msg h f ad hitem,
   trace_filter_invoke pamh PAM_TEXT_INFO msg h f ad hitem,
   trace_filter_invoke pamh PAM_ERROR_MSG msg h f ad hitem⟩

/-- C8: two runs of `pam_msg` whose capabilities report the same raw code —
in particular two runs differing only in the content of the secret field of
the returned response — return the same code: the bridge's result depends
on nothing of the response content, which is only destroyed. -/
theorem response_content_noninterference
    (pamh₁ pamh₂ : pam_handle_t) (style : Int) (msg₁ msg₂ : Addr)
    (h₁ h₂ : Heap) (f₁ f₂ : ConvFn) (ad₁ ad₂ : Addr)
    (hitem₁ : pamh₁.conv_item = (PAM_SUCCESS, some ⟨some f₁, ad₁⟩))
    (hitem₂ : pamh₂.conv_item = (PAM_SUCCESS, some ⟨some f₂, ad₂⟩))
    (hret : (f₁ 1 [⟨style, msg₁⟩] ad₁).ret = (f₂ 1 [⟨style, msg₂⟩] ad₂).ret) :
    (pam_msg pamh₁ style msg₁ h₁).ret = (pam_msg pamh₂ style msg₂ h₂).ret := by
  rw [pam_msg_ret_invoked pamh₁ style msg₁ h₁ f₁ ad₁ hitem₁,
      pam_msg_ret_invoked pamh₂ style msg₂ h₂ f₂ ad₂ hitem₂, hret]

/-- C9: when the capability returns a NULL response pointer, `pam_msg`
performs no zeroing and no release (the trace holds only the invocation,
the bridge frees nothing from the heap) and still returns the raw code the
capability reported. -/
theorem null_response_benign
    (pamh : pam_handle_t) (style : Int) (msg : Addr) (h : Heap)
    (f : ConvFn) (ad : Addr) (rc : Int) (allocs : List (Addr × Buffer))
    (hitem : pamh.conv_item = (PAM_SUCCESS, some ⟨some f, ad⟩))
    (hconv : f 1 [⟨style, msg⟩] ad = ⟨rc, none, allocs⟩) :
    pam_msg pamh style msg h =
      ⟨rc, h ++ allocs, [Event.invokeConv 1 [⟨style, msg⟩] ad]⟩ :=
  pam_msg_resp_none pamh style msg h f ad rc allocs hitem hconv

/-- C10: the caller's text buffer is passed by reference and never modified
by the bridge: for any call (hence for each fixed-style wrapper, which is
`pam_msg` at its style), if the text allocation is disjoint from the secret
buffer the bridge zeroes — which is every buffer the trace's `memset`
events target — then the text bytes are identical before and after the
call. -/
theorem caller_text_preserved
    (pamh : pam_handle_t) (style : Int) (msg : Addr) (h : Heap) (tb : Buffer)
    (htext : Heap.lookup h msg = some tb)
    (hsep : ∀ a n, Event.memsetZero a n ∈ (pam_msg pamh style msg h).trace →
      a ≠ msg) :
    Heap.lookup (pam_msg pamh style msg h).heap msg = some tb := by
  obtain ⟨item⟩ := pamh
  obtain ⟨ret0, conv?⟩ := item
  cases conv? with
  | none => simpa [pam_msg] using htext
  | some conv =>
    obtain ⟨cf, ap⟩ := conv
    cases cf with
    | none => simpa [pam_msg] using htext
    | some f =>
      by_cases hr : ret0 = PAM_SUCCESS
      · subst hr
        rcases hR : f 1 [⟨style, msg⟩] ap with ⟨rc, respOpt, allocs⟩
        cases respOpt with
        | none =>
          rw [pam_msg_resp_none _ style msg h f ap rc allocs rfl hR]
          exact Heap.lookup_append_left h _ msg tb htext
        | some env =>
          obtain ⟨ra⟩ := env
          cases ra with
          | none =>
            rw [pam_msg_secret_none _ style msg h f ap rc allocs rfl hR]
            exact Heap.lookup_append_left h _ msg tb htext
          | some a =>
            rw [pam_msg_secret_some _ style msg h f ap rc a allocs rfl hR] at hsep ⊢
            have hne : a ≠ msg :=
              hsep a (strlen ((Heap.lookup (h ++ allocs) a).getD [])) (by simp)
            rw [Heap.lookup_erase_ne _ a msg hne,
                Heap.lookup_update_ne _ a msg _ hne]
            exact Heap.lookup_append_left h _ msg tb htext
      · simpa [pam_msg, hr] using htext

/-! Concrete fixtures: capability doubles and a heap holding the caller's
text at address 9, used to instantiate the theorems. -/

/-- Capability double returning `PAM_AUTH_ERR` and a response whose secret
is the freshly allocated string `[7, 3, 0]` at address 5. -/
def convSecret : ConvFn :=
  fun _ _ _ => ⟨PAM_AUTH_ERR, some ⟨some 5⟩, [(5, [7, 3, 0])]⟩

/-- Capability double returning the same raw code as `convSecret` but a
different secret content at the same address. -/
def convSecretB : ConvFn :=
  fun _ _ _ => ⟨PAM_AUTH_ERR, some ⟨some 5⟩, [(5, [8, 8, 8, 0])]⟩

/-- Capability double returning a non-null envelope with a NULL secret. -/
def convNullSecret : ConvFn := fun _ _ _ => ⟨PAM_SUCCESS, some ⟨none⟩, []⟩

/-- Capability double returning a NULL response pointer. -/
def convNullResp : ConvFn := fun _ _ _ => ⟨PAM_IGNORE, none, []⟩

/-- A handle whose conversation item holds the given capability. -/
def handleWith (f : ConvFn) : pam_handle_t := ⟨(PAM_SUCCESS, some ⟨some f, 0⟩)⟩

/-- A handle on which no conversation capability is registered. -/
def handleNoConv : pam_handle_t := ⟨(PAM_SUCCESS, none)⟩

/-- A heap holding the caller's text `[65, 66, 0]` at address 9. -/
def textHeap : Heap := [(9, [65, 66, 0])]

/-- Witness for C1 at a concrete capability, secret and heap. -/
theorem secret_zeroed_before_release_witness :
    ∃ zs : Buffer,
      (pam_msg (handleWith convSecret) PAM_PROMPT_ECHO_ON 9 textHeap).trace =
        [Event.invokeConv 1 [⟨PAM_PROMPT_ECHO_ON, 9⟩] 0,
         Event.memsetZero 5 (strlen [7, 3, 0]),
         Event.freeSecret 5 zs, Event.freeEnvelope] ∧
      ∀ b ∈ zs, b = 0 :=
  secret_zeroed_before_release (handleWith convSecret) PAM_PROMPT_ECHO_ON 9
    textHeap convSecret 0 PAM_AUTH_ERR 5 [(5, [7, 3, 0])] [7, 3, 0]
    rfl rfl (by decide) ⟨[7, 3], rfl, by decide⟩

/-- Witness for C2 at a concrete capability reporting a failure code. -/
theorem cleanup_unconditional_witness :
    Event.freeEnvelope ∈
        (pam_msg (handleWith convSecret) PAM_PROMPT_ECHO_ON 9 textHeap).trace ∧
    ∀ a, (pam_response.mk (some 5)).resp = some a →
      Event.memsetZero a
          (strlen ((Heap.lookup (textHeap ++ [(5, [7, 3, 0])]) a).getD [])) ∈
        (pam_msg (handleWith convSecret) PAM_PROMPT_ECHO_ON 9 textHeap).trace ∧
      ∃ zs, Event.freeSecret a zs ∈
        (pam_msg (handleWith convSecret) PAM_PROMPT_ECHO_ON 9 textHeap).trace :=
  cleanup_unconditional (handleWith convSecret) PAM_PROMPT_ECHO_ON 9 textHeap
    convSecret 0 PAM_AUTH_ERR ⟨some 5⟩ [(5, [7, 3, 0])] rfl rfl

/-- Witness for C3 on a handle without a registered capability. -/
theorem conv_unavailable_witness :
    pam_msg handleNoConv PAM_TEXT_INFO 9 textHeap =
      ⟨PAM_CONV_ERR, textHeap, []⟩ :=
  conv_unavailable handleNoConv PAM_TEXT_INFO 9 textHeap (Or.inr (Or.inl rfl))

/-- Witness for C4 on a response with a NULL secret field. -/
theorem envelope_released_once_witness :
    (pam_msg (handleWith convNullSecret) PAM_ERROR_MSG 9 textHeap).trace.countP
        Event.isFreeEnvelope = 1 ∧
    ((pam_response.mk none).resp = none →
      (pam_msg (handleWith convNullSecret) PAM_ERROR_MSG 9 textHeap).trace =
        [Event.invokeConv 1 [⟨PAM_ERROR_MSG, 9⟩] 0, Event.freeEnvelope]) :=
  envelope_released_once (handleWith convNullSecret) PAM_ERROR_MSG 9 textHeap
    convNullSecret 0 PAM_SUCCESS ⟨none⟩ [] rfl rfl

/-- Witness for C5 at a concrete capability returning `PAM_IGNORE`. -/
theorem status_mapping_witness :
    (pam_msg (handleWith convNullResp) PAM_TEXT_INFO 9 textHeap).ret =
        PAM_IGNORE ∧
    statusOfRaw PAM_TOTP_SUCCESS = StatusCode.Success ∧
    statusOfRaw PAM_TOTP_AUTH_ERR = StatusCode.AuthError ∧
    statusOfRaw PAM_TOTP_USER_UNKNOWN = StatusCode.UserUnknown ∧
    statusOfRaw PAM_TOTP_IGNORE = StatusCode.Ignore ∧
    (∀ c : Int, c ≠ PAM_TOTP_SUCCESS → c ≠ PAM_TOTP_AUTH_ERR →
      c ≠ PAM_TOTP_USER_UNKNOWN → c ≠ PAM_TOTP_IGNORE →
      statusOfRaw c = StatusCode.Unmapped c) :=
  status_mapping (handleWith convNullResp) PAM_TEXT_INFO 9 textHeap
    convNullResp 0 PAM_IGNORE none [] rfl rfl

/-- Witness for C6 at a concrete style, text and capability. -/
theorem single_dispatch_witness :
    (pam_msg (handleWith convSecret) PAM_TEXT_INFO 9 textHeap).trace.filter
        Event.isInvoke =
      [Event.invokeConv 1 [⟨PAM_TEXT_INFO, 9⟩] 0] :=
  single_dispatch PAM_TEXT_INFO 9 (handleWith convSecret) textHeap
    convSecret 0 rfl

/-- Witness for C7 at a concrete handle and text. -/
theorem style_routing_witness :
    pam_totp_prompt (handleWith convSecret) 9 textHeap =
      pam_msg (handleWith convSecret) PAM_PROMPT_ECHO_ON 9 textHeap ∧
    pam_totp_info (handleWith convSecret) 9 textHeap =
      pam_msg (handleWith convSecret) PAM_TEXT_INFO 9 textHeap ∧
    pam_totp_error (handleWith convSecret) 9 textHeap =
      pam_msg (handleWith convSecret) PAM_ERROR_MSG 9 textHeap ∧
    (pam_totp_prompt (handleWith convSecret) 9 textHeap).trace.filter
        Event.isInvoke = [Event.invokeConv 1 [⟨PAM_PROMPT_ECHO_ON, 9⟩] 0] ∧
    (pam_totp_info (handleWith convSecret) 9 textHeap).trace.filter
        Event.isInvoke = [Event.invokeConv 1 [⟨PAM_TEXT_INFO, 9⟩] 0] ∧
    (pam_totp_error (handleWith convSecret) 9 textHeap).trace.filter
        Event.isInvoke = [Event.invokeConv 1 [⟨PAM_ERROR_MSG, 9⟩] 0] :=
  style_routing (handleWith convSecret) 9 textHeap convSecret 0 rfl

/-- Witness for C8: two capabilities returning the same raw code but
different secret contents yield the same returned code. -/
theorem response_content_noninterference_witness :
    (pam_msg (handleWith convSecret) PAM_PROMPT_ECHO_ON 9 textHeap).ret =
      (pam_msg (handleWith convSecretB) PAM_PROMPT_ECHO_ON 9 textHeap).ret :=
  response_content_noninterference (handleWith convSecret)
    (handleWith convSecretB) PAM_PROMPT_ECHO_ON 9 9 textHeap textHeap
    convSecret convSecretB 0 0 rfl rfl rfl

/-- Witness for C9 at a capability returning a NULL response pointer. -/
theorem null_response_benign_witness :
    pam_msg (handleWith convNullResp) PAM_ERROR_MSG 9 textHeap =
      ⟨PAM_IGNORE, textHeap ++ [], [Event.invokeConv 1 [⟨PAM_ERROR_MSG, 9⟩] 0]⟩ :=
  null_response_benign (handleWith convNullResp) PAM_ERROR_MSG 9 textHeap
    convNullResp 0 PAM_IGNORE [] rfl rfl

/-- Witness for C10: the caller's text at address 9 is unchanged by a call
whose capability returns a secret at the distinct address 5. -/
theorem caller_text_preserved_witness :
    Heap.lookup
        (pam_msg (handleWith convSecret) PAM_PROMPT_ECHO_ON 9 textHeap).heap 9 =
      some [65, 66, 0] :=
  caller_text_preserved (handleWith convSecret) PAM_PROMPT_ECHO_ON 9 textHeap
    [65, 66, 0] (by decide)
    (by
      have ht : (pam_msg (handleWith convSecret) PAM_PROMPT_ECHO_ON 9
          textHeap).trace =
          [Event.invokeConv 1 [⟨PAM_PROMPT_ECHO_ON, 9⟩] 0,
           Event.memsetZero 5 2, Event.freeSecret 5 [0, 0, 0],
           Event.freeEnvelope] := by decide
      intro a n hmem
      rw [ht] at hmem
      simp only [List.mem_cons, List.not_mem_nil, or_false] at hmem
      rcases hmem with h1 | h1 | h1 | h1 <;> cases h1
      decide)

end PamBridge
